import Mathlib

/-!
Verification of the food-recommendation receipt system (datamodel.py).

The Python data model is shallowly embedded: classes become structures,
mutating methods become functions returning the updated value (and, for
methods of the aggregate, the updated system), exceptions become an
explicit error sum, and every source of nondeterminism (random sampling,
salt generation, the current time) is an explicit parameter.

Modelling conventions, fixed once here:
- `datetime` values are integers (a linear timestamp in seconds);
  `timedelta(days=d)` is `d * 86400`.  `isoformat`/`fromisoformat` form a
  bijection between datetimes and their (never-empty) ISO strings, so the
  serialized datetime is modelled by the value itself and the Python
  truthiness test on the serialized string is `Option.isSome`.
- `bytes` are `List Nat`; `base64.b64encode`/`b64decode` form a bijection
  that preserves emptiness, so the serialized image is modelled by the byte
  list itself, and Python truthiness of both the bytes and their base64
  string is "present and nonempty".
- `hashlib.sha256(...).hexdigest()` is an opaque pure function
  `H : String → String`, threaded as a parameter; its output is never the
  empty string (a fact used only through explicit hypotheses).
- Python dicts are association lists in insertion order with unique keys
  (`dictSet` overwrites in place or appends, exactly as dict assignment).
- `str.lower` and `str.capitalize` act characterwise as in the source data
  (ASCII ingredient names and emails).
-/

namespace FoodRec

/-- A timestamp in seconds; `datetime` in the source. -/
abbrev DateTime := Int

/-- Raw bytes; `bytes` in the source. -/
abbrev Bytes := List Nat

/-- Python `str.lower`, characterwise. -/
def pyLower (s : String) : String :=
  String.mk (s.data.map Char.toLower)

/-- Python `str.capitalize`: first character uppercased, the rest lowercased. -/
def pyCapitalize (s : String) : String :=
  match s.data with
  | [] => ""
  | ch :: rest => String.mk (Char.toUpper ch :: rest.map Char.toLower)

/-- Python truthiness of an optional byte string: `None` and `b""` are falsy. -/
def bytesTruthy : Option Bytes → Bool
  | some bs => !bs.isEmpty
  | none => false

/-- The `Customer` record of `datamodel.py` (the never-used
`purchase_history`, always the empty list, is omitted). -/
structure Customer where
  customer_id : String
  email : String
  birthdate : DateTime
  gender : String
  address : String
  favorite_food : List String
  password_hash : Option String
  salt : Option String
  last_login : Option DateTime
  deriving DecidableEq, Repr

/-- The `Receipt` record of `datamodel.py`. -/
structure Receipt where
  receipt_id : String
  upload_date : DateTime
  image_data : Option Bytes
  ocr_text : String
  ingredients : List String
  quantity : Int
  shelf_life : DateTime
  deriving DecidableEq, Repr

/-- The `MenuItem` record; `price` is inert in every modelled operation and
is carried as an integer token. -/
structure MenuItem where
  item_id : String
  name : String
  ingredients : List String
  price : Int
  deriving DecidableEq, Repr

/-- The `Store` record; `location` is the two-coordinate tuple. -/
structure Store where
  store_id : String
  name : String
  location : Int × Int
  menu_items : List MenuItem
  deriving DecidableEq, Repr

/-- The `ReceiptSystem` aggregate: customer list, store list, and the
receipts dict as an insertion-ordered association list. -/
structure ReceiptSystem where
  customers : List Customer
  stores : List Store
  receipts : List (String × List Receipt)
  deriving DecidableEq, Repr

/-- The dict produced by `Customer.to_dict` (serialized datetimes modelled
by their values, see the header). -/
structure CustomerDict where
  customer_id : String
  email : String
  birthdate : DateTime
  gender : String
  address : String
  favorite_food : List String
  password_hash : Option String
  salt : Option String
  last_login : Option DateTime
  deriving DecidableEq, Repr

/-- The dict produced by `Receipt.to_dict` (base64 modelled by the byte
list itself). -/
structure ReceiptDict where
  receipt_id : String
  upload_date : DateTime
  image_data : Option Bytes
  ocr_text : String
  ingredients : List String
  quantity : Int
  shelf_life : DateTime
  deriving DecidableEq, Repr

/-- The dict produced by `MenuItem.to_dict`. -/
structure MenuItemDict where
  item_id : String
  name : String
  ingredients : List String
  price : Int
  deriving DecidableEq, Repr

/-- The dict produced by `Store.to_dict`. -/
structure StoreDict where
  store_id : String
  name : String
  location : Int × Int
  menu_items : List MenuItemDict
  deriving DecidableEq, Repr

/-- The snapshot dict produced by `ReceiptSystem.to_dict`. -/
structure SystemDict where
  customers : List CustomerDict
  stores : List StoreDict
  receipts : List (String × List ReceiptDict)
  deriving DecidableEq, Repr

/-- `Customer.to_dict`: `last_login` is serialized through
`isoformat() if self.last_login else None`; a datetime is always truthy,
so this is the identity on the option under the codec convention. -/
def Customer.to_dict (c : Customer) : CustomerDict :=
  { customer_id := c.customer_id
    email := c.email
    birthdate := c.birthdate
    gender := c.gender
    address := c.address
    favorite_food := c.favorite_food
    password_hash := c.password_hash
    salt := c.salt
    last_login := c.last_login }

/-- `Customer.from_dict`: `last_login` is parsed only when
`data.get("last_login")` is truthy; ISO strings are never empty, so the
test is `isSome`. -/
def Customer.from_dict (d : CustomerDict) : Customer :=
  { customer_id := d.customer_id
    email := d.email
    birthdate := d.birthdate
    gender := d.gender
    address := d.address
    favorite_food := d.favorite_food
    password_hash := d.password_hash
    salt := d.salt
    last_login := match d.last_login with
      | some t => some t
      | none => none }

/-- `Receipt.to_dict`: the image is base64-encoded only when
`self.image_data` is truthy (present and nonempty); otherwise `None`. -/
def Receipt.to_dict (r : Receipt) : ReceiptDict :=
  { receipt_id := r.receipt_id
    upload_date := r.upload_date
    image_data := if bytesTruthy r.image_data then r.image_data else none
    ocr_text := r.ocr_text
    ingredients := r.ingredients
    quantity := r.quantity
    shelf_life := r.shelf_life }

/-- `Receipt.from_dict`: the image is decoded only when
`data.get("image_data")` is truthy; base64 preserves emptiness. -/
def Receipt.from_dict (d : ReceiptDict) : Receipt :=
  { receipt_id := d.receipt_id
    upload_date := d.upload_date
    image_data := if bytesTruthy d.image_data then d.image_data else none
    ocr_text := d.ocr_text
    ingredients := d.ingredients
    quantity := d.quantity
    shelf_life := d.shelf_life }

/-- `MenuItem.to_dict`. -/
def MenuItem.to_dict (m : MenuItem) : MenuItemDict :=
  { item_id := m.item_id, name := m.name, ingredients := m.ingredients, price := m.price }

/-- `MenuItem.from_dict`. -/
def MenuItem.from_dict (d : MenuItemDict) : MenuItem :=
  { item_id := d.item_id, name := d.name, ingredients := d.ingredients, price := d.price }

/-- `Store.to_dict`. -/
def Store.to_dict (s : Store) : StoreDict :=
  { store_id := s.store_id
    name := s.name
    location := s.location
    menu_items := s.menu_items.map MenuItem.to_dict }

/-- `Store.from_dict` (`tuple(data["location"])` is the identity on the
two-coordinate pair). -/
def Store.from_dict (d : StoreDict) : Store :=
  { store_id := d.store_id
    name := d.name
    location := d.location
    menu_items := d.menu_items.map MenuItem.from_dict }

/-- Python dict assignment `m[k] = v` on an insertion-ordered association
list: overwrite in place if the key exists, else append. -/
def dictSet {α : Type} (m : List (String × α)) (k : String) (v : α) : List (String × α) :=
  match m with
  | [] => [(k, v)]
  | p :: rest => if p.1 = k then (k, v) :: rest else p :: dictSet rest k v

/-- Python `k in m` on the association list. -/
def dictMem {α : Type} (k : String) (m : List (String × α)) : Bool :=
  m.any (fun p => p.1 == k)

/-- Python `m[k]` (used only under a `k in m` guard; defaults to the
empty list off that path). -/
def dictFind (k : String) (m : List (String × List Receipt)) : List Receipt :=
  match m with
  | [] => []
  | p :: rest => if p.1 = k then p.2 else dictFind k rest

/-- Python `m[k].append(r)`: extend the list stored at the first
occurrence of the key. -/
def dictAppend (m : List (String × List Receipt)) (k : String) (r : Receipt) :
    List (String × List Receipt) :=
  match m with
  | [] => []
  | p :: rest => if p.1 = k then (p.1, p.2 ++ [r]) :: rest else p :: dictAppend rest k r

/-- `ReceiptSystem.to_dict`. -/
def ReceiptSystem.to_dict (s : ReceiptSystem) : SystemDict :=
  { customers := s.customers.map Customer.to_dict
    stores := s.stores.map Store.to_dict
    receipts := s.receipts.map (fun p => (p.1, p.2.map Receipt.to_dict)) }

/-- `ReceiptSystem.from_dict`: start from an empty system, append the
stores, append the customers, then assign each receipts entry — exactly
the three loops of the source, which create no receipt entries for the
loaded customers. -/
def ReceiptSystem.from_dict (d : SystemDict) : ReceiptSystem :=
  let s0 : ReceiptSystem := { customers := [], stores := [], receipts := [] }
  let s1 := d.stores.foldl (fun s sd => { s with stores := s.stores ++ [Store.from_dict sd] }) s0
  let s2 := d.customers.foldl
    (fun s cd => { s with customers := s.customers ++ [Customer.from_dict cd] }) s1
  d.receipts.foldl
    (fun s p => { s with receipts := dictSet s.receipts p.1 (p.2.map Receipt.from_dict) }) s2

/-- The exceptions the source raises. -/
inductive PyError where
  | valueError (msg : String)
  deriving DecidableEq, Repr

/-- `ReceiptSystem.register_customer`: duplicate-id check, then
duplicate-email check (exact string equality), then append the customer
and create its empty receipt list.  The pair carries the raised error or
unit together with the post-state. -/
def ReceiptSystem.register_customer (s : ReceiptSystem) (c : Customer) :
    Except PyError Unit × ReceiptSystem :=
  if s.customers.any (fun c0 => c0.customer_id == c.customer_id) then
    (.error (.valueError ("Customer with ID " ++ c.customer_id ++ " already exists")), s)
  else if s.customers.any (fun c0 => c0.email == c.email) then
    (.error (.valueError ("Customer with email " ++ c.email ++ " already exists")), s)
  else
    (.ok (), { s with customers := s.customers ++ [c]
                      receipts := dictSet s.receipts c.customer_id [] })

/-- `ReceiptSystem.add_store`. -/
def ReceiptSystem.add_store (s : ReceiptSystem) (st : Store) :
    Except PyError Unit × ReceiptSystem :=
  if s.stores.any (fun s0 => s0.store_id == st.store_id) then
    (.error (.valueError ("Store with ID " ++ st.store_id ++ " already exists")), s)
  else
    (.ok (), { s with stores := s.stores ++ [st] })

/-- The scan of `get_customer_by_email`: first customer whose lowercased
email equals the lowercased query. -/
def findByEmail (email : String) : List Customer → Option Customer
  | [] => none
  | c :: rest => if pyLower c.email = pyLower email then some c else findByEmail email rest

/-- `ReceiptSystem.get_customer_by_email`. -/
def ReceiptSystem.get_customer_by_email (s : ReceiptSystem) (email : String) : Option Customer :=
  findByEmail email s.customers

/-- The scan of `update_customer`: replace the first customer with a
matching id, reporting whether one was found. -/
def updateById (c : Customer) : List Customer → Bool × List Customer
  | [] => (false, [])
  | c0 :: rest =>
    if c0.customer_id = c.customer_id then (true, c :: rest)
    else
      let r := updateById c rest
      (r.1, c0 :: r.2)

/-- `ReceiptSystem.update_customer`: boolean result, no receipt-list side
effect. -/
def ReceiptSystem.update_customer (s : ReceiptSystem) (c : Customer) : Bool × ReceiptSystem :=
  let r := updateById c s.customers
  (r.1, { s with customers := r.2 })

/-- `Customer._hash_password`: the digest `H` of the plaintext followed by
the salt (`H` stands for the opaque sha256-hexdigest). -/
def hash_password (H : String → String) (password salt : String) : String :=
  H (password ++ salt)

/-- `Customer.set_password`: overwrite both fields with the freshly
generated salt (injected as `newSalt`) and the salted hash. -/
def Customer.set_password (H : String → String) (c : Customer) (password newSalt : String) :
    Customer :=
  { c with salt := some newSalt
           password_hash := some (hash_password H password newSalt) }

/-- `Customer.verify_password`: false when either credential field is
falsy (absent or empty), else exact string comparison of the stored hash
against the recomputed one. -/
def Customer.verify_password (H : String → String) (c : Customer) (password : String) : Bool :=
  match c.password_hash, c.salt with
  | some h, some sl =>
    if h = "" ∨ sl = "" then false
    else decide (h = hash_password H password sl)
  | _, _ => false

/-- `Customer.record_login` with the current time injected. -/
def Customer.record_login (c : Customer) (now : DateTime) : Customer :=
  { c with last_login := some now }

/-- In-place `record_login` as seen through the customers list: the
object returned by the email scan is aliased into the list, so mutating
it updates the first customer with a matching (case-insensitive) email. -/
def recordLoginFirst (email : String) (now : DateTime) : List Customer → List Customer
  | [] => []
  | c :: rest =>
    if pyLower c.email = pyLower email then c.record_login now :: rest
    else c :: recordLoginFirst email now rest

/-- `ReceiptSystem.authenticate_customer`: email lookup, then password
verification; on success the found customer records the login time (both
as returned and inside the list), otherwise the `None` sentinel with the
system untouched. -/
def ReceiptSystem.authenticate_customer (H : String → String) (s : ReceiptSystem)
    (email password : String) (now : DateTime) : Option Customer × ReceiptSystem :=
  match s.get_customer_by_email email with
  | none => (none, s)
  | some c =>
    if c.verify_password H password then
      (some (c.record_login now), { s with customers := recordLoginFirst email now s.customers })
    else
      (none, s)

/-- The fixed ingredient vocabulary of `process_receipt`. -/
def sample_ingredients : List String :=
  ["beef", "chicken", "lettuce", "tomato", "cheese", "bread", "milk", "eggs", "rice", "pasta"]

/-- One day of `timedelta(days=1)` in the timestamp unit. -/
def secondsPerDay : Int := 86400

/-- The `%Y-%m-%d` rendering of a timestamp, an opaque pure function of
the date modelled by decimal rendering. -/
def dateStr (t : DateTime) : String := toString t

/-- The per-ingredient lines of the synthetic OCR text; `prices i` is the
formatted random price drawn at the i-th line. -/
def ocrItemLines (prices : Nat → String) : List String → Nat → String
  | [], _ => ""
  | ing :: rest, i =>
    "- " ++ pyCapitalize ing ++ " $" ++ prices i ++ "\n" ++ ocrItemLines prices rest (i + 1)

/-- The full synthetic OCR text built by `process_receipt`. -/
def ocrText (receipt_id : String) (upload_date : DateTime) (sampled : List String)
    (prices : Nat → String) : String :=
  "Receipt #" ++ receipt_id ++ "\n" ++ "Date: " ++ dateStr upload_date ++ "\n" ++
    "Items:\n" ++ ocrItemLines prices sampled 0

/-- `ReceiptSystem.process_receipt` with the randomness injected: the
drawn ingredient sample and the price formatter.  Overwrites the
ingredients, the OCR text and the shelf life (3 days when milk or eggs
was sampled, else 7), then appends the mutated receipt to the list of the
given customer only when the id is truthy and a key of the mapping. -/
def ReceiptSystem.process_receipt (s : ReceiptSystem) (receipt : Receipt)
    (customer_id : Option String) (sampled : List String) (prices : Nat → String) :
    Receipt × ReceiptSystem :=
  let shelf_life_days : Int := if "milk" ∈ sampled ∨ "eggs" ∈ sampled then 3 else 7
  let r1 : Receipt :=
    { receipt with
      ingredients := sampled
      ocr_text := ocrText receipt.receipt_id receipt.upload_date sampled prices
      shelf_life := receipt.upload_date + shelf_life_days * secondsPerDay }
  match customer_id with
  | some cid =>
    if cid ≠ "" ∧ dictMem cid s.receipts then
      (r1, { s with receipts := dictAppend s.receipts cid r1 })
    else (r1, s)
  | none => (r1, s)

/-- The sort key of the recommendation ranking: how many of the interest
ingredients (a set, here an already-deduplicated list) the item contains. -/
def matchScore (interest : List String) (item : MenuItem) : Nat :=
  interest.countP (fun ing => item.ingredients.contains ing)

/-- Stable descending insertion: the element moves past every strictly
greater score and stops before the first less-or-equal one. -/
def insertDescBy {α : Type} (score : α → Nat) (x : α) : List α → List α
  | [] => [x]
  | b :: bs => if score b ≤ score x then x :: b :: bs else b :: insertDescBy score x bs

/-- Stable descending sort by a numeric key, the model of
`list.sort(key=..., reverse=True)` (whose output is determined by
sortedness plus stability). -/
def sortDescBy {α : Type} (score : α → Nat) : List α → List α
  | [] => []
  | x :: xs => insertDescBy score x (sortDescBy score xs)

/-- The candidate pool: every menu item of every store, store order then
item order. -/
def ReceiptSystem.allMenuItems (s : ReceiptSystem) : List MenuItem :=
  s.stores.foldl (fun acc st => acc ++ st.menu_items) []

/-- The interest set of a customer: favourite foods plus the ingredients
of every stored receipt under the customer id, deduplicated (the Python
`set`; only membership and cardinality of this list are ever used). -/
def ReceiptSystem.interestSet (s : ReceiptSystem) (customer : Customer) : List String :=
  (customer.favorite_food ++
    (if dictMem customer.customer_id s.receipts then
      (dictFind customer.customer_id s.receipts).foldl
        (fun acc (r : Receipt) => acc ++ r.ingredients) []
    else [])).dedup

/-- The matching items: every pool item sharing at least one ingredient
with the interest set, in pool order. -/
def ReceiptSystem.matchingItems (s : ReceiptSystem) (customer : Customer) : List MenuItem :=
  s.allMenuItems.filter
    (fun item => (s.interestSet customer).any (fun ing => item.ingredients.contains ing))

/-- `ReceiptSystem.get_recommendations` with the fallback randomness
injected: `randInt13` is the drawn `randint(1, 3)` and `sampleIdxs` the
pool positions chosen by `random.sample` (the first
`min(pool size, randInt13)` of them are used). -/
def ReceiptSystem.get_recommendations (s : ReceiptSystem) (customer : Customer)
    (randInt13 : Nat) (sampleIdxs : List Nat) : List MenuItem :=
  let all_menu_items := s.allMenuItems
  if all_menu_items.isEmpty then []
  else
    let matching_items := s.matchingItems customer
    if matching_items.isEmpty then
      let num_recommendations := min all_menu_items.length randInt13
      (sampleIdxs.take num_recommendations).filterMap (fun i => all_menu_items[i]?)
    else
      (sortDescBy (matchScore (s.interestSet customer)) matching_items).take 3

/-- The invariant of claim C9: every registered customer id is a key of
the receipts mapping. -/
def ReceiptSystem.Inv (s : ReceiptSystem) : Prop :=
  ∀ c ∈ s.customers, dictMem c.customer_id s.receipts = true

instance (s : ReceiptSystem) : Decidable s.Inv :=
  decidable_of_iff (∀ c ∈ s.customers, dictMem c.customer_id s.receipts = true) Iff.rfl

/-! ### Helper lemmas: serialization round trips -/

@[simp]
theorem customer_roundtrip (c : Customer) : Customer.from_dict (Customer.to_dict c) = c := by
  obtain ⟨_, _, _, _, _, _, _, _, ll⟩ := c
  cases ll <;> rfl

@[simp]
theorem menuItem_roundtrip (m : MenuItem) : MenuItem.from_dict (MenuItem.to_dict m) = m := rfl

@[simp]
theorem store_roundtrip (st : Store) : Store.from_dict (Store.to_dict st) = st := by
  simp [Store.to_dict, Store.from_dict, List.map_map, Function.comp_def]

theorem receipt_roundtrip (r : Receipt) (h : r.image_data ≠ some []) :
    Receipt.from_dict (Receipt.to_dict r) = r := by
  obtain ⟨_, _, img, _, _, _, _⟩ := r
  cases img with
  | none => rfl
  | some bs =>
    cases bs with
    | nil => simp at h
    | cons b bs2 => simp [Receipt.to_dict, Receipt.from_dict, bytesTruthy]

theorem dictSet_of_not_mem {α : Type} (m : List (String × α)) (k : String) (v : α)
    (h : k ∉ m.map Prod.fst) : dictSet m k v = m ++ [(k, v)] := by
  induction m with
  | nil => rfl
  | cons p rest ih =>
    simp only [List.map_cons, List.mem_cons] at h
    push_neg at h
    simp [dictSet, Ne.symm h.1, ih h.2]

theorem foldl_stores_append (l : List StoreDict) (s : ReceiptSystem) :
    l.foldl (fun s sd => { s with stores := s.stores ++ [Store.from_dict sd] }) s =
      { s with stores := s.stores ++ l.map Store.from_dict } := by
  induction l generalizing s with
  | nil => simp
  | cons sd rest ih => simp [List.foldl_cons, ih]

theorem foldl_customers_append (l : List CustomerDict) (s : ReceiptSystem) :
    l.foldl (fun s cd => { s with customers := s.customers ++ [Customer.from_dict cd] }) s =
      { s with customers := s.customers ++ l.map Customer.from_dict } := by
  induction l generalizing s with
  | nil => simp
  | cons cd rest ih => simp [List.foldl_cons, ih]

theorem foldl_receipts_assign (l : List (String × List ReceiptDict)) (s : ReceiptSystem)
    (h : (s.receipts.map Prod.fst ++ l.map Prod.fst).Nodup) :
    l.foldl (fun s p => { s with receipts := dictSet s.receipts p.1 (p.2.map Receipt.from_dict) })
        s =
      { s with receipts := s.receipts ++ l.map (fun p => (p.1, p.2.map Receipt.from_dict)) } := by
  induction l generalizing s with
  | nil => simp
  | cons p rest ih =>
    have hmem : p.1 ∉ s.receipts.map Prod.fst := by
      intro hc
      have := (List.nodup_append.mp h).2.2
      exact this hc (by simp)
    rw [List.foldl_cons, dictSet_of_not_mem _ _ _ hmem]
    rw [ih]
    · simp
    · simp only [List.map_append, List.map_cons]
      simp only [List.map_cons] at h
      have h2 := h
      rw [show s.receipts.map Prod.fst ++ p.1 :: rest.map Prod.fst =
            (s.receipts.map Prod.fst ++ [p.1]) ++ rest.map Prod.fst by simp] at h2
      simpa using h2

/-! ### Concrete fixtures used by witnesses and counterexamples -/

/-- A sample customer. -/
def wCust : Customer :=
  { customer_id := "a", email := "A@x.com", birthdate := 0, gender := "f", address := "addr"
    favorite_food := ["cheese"], password_hash := none, salt := none, last_login := none }

/-- A sample receipt with a nonempty image. -/
def wReceipt : Receipt :=
  { receipt_id := "r1", upload_date := 100, image_data := some [1, 2], ocr_text := ""
    ingredients := [], quantity := 1, shelf_life := 0 }

/-- Menu item overlapping the sample customer interests. -/
def wItem1 : MenuItem :=
  { item_id := "i1", name := "sandwich", ingredients := ["bread", "cheese"], price := 5 }

/-- Menu item with no overlap. -/
def wItem2 : MenuItem :=
  { item_id := "i2", name := "salad", ingredients := ["lettuce", "tomato"], price := 4 }

/-- Menu item with one overlap, later in the pool. -/
def wItem3 : MenuItem :=
  { item_id := "i3", name := "omelette", ingredients := ["eggs", "cheese", "milk"], price := 6 }

/-- A sample store owning the three items. -/
def wStore : Store :=
  { store_id := "s1", name := "main", location := (1, 2), menu_items := [wItem1, wItem2, wItem3] }

/-- A sample system: one registered customer with an empty receipt list,
one store. -/
def wSystem : ReceiptSystem :=
  { customers := [wCust], stores := [wStore], receipts := [("a", [])] }

/-- A fixed price formatter standing for the random price draws. -/
def wPrices : Nat → String := fun _ => "9.99"

/-- A concrete stand-in for the opaque digest. -/
def wHash : String → String := fun str => "h" ++ str

/-! ### Claim C1 -/

/-- Claim C1 (corrected): for a `ReceiptSystem` whose receipt keys are the
keys of a Python dict (no duplicates) and whose stored receipts never
carry a present-but-empty image, `from_dict` after `to_dict` reproduces
the system field for field. -/
theorem c1_roundtrip (s : ReceiptSystem)
    (hkeys : (s.receipts.map Prod.fst).Nodup)
    (himg : ∀ p ∈ s.receipts, ∀ r ∈ p.2, r.image_data ≠ some []) :
    ReceiptSystem.from_dict (ReceiptSystem.to_dict s) = s := by
  obtain ⟨cs, sts, rs⟩ := s
  simp only [ReceiptSystem.from_dict, ReceiptSystem.to_dict] at *
  rw [foldl_stores_append, foldl_customers_append, foldl_receipts_assign]
  · simp only [List.nil_append, List.map_map, ReceiptSystem.mk.injEq]
    refine ⟨?_, ?_, ?_⟩
    · exact (List.map_congr_left (fun c _ => customer_roundtrip c)).trans (List.map_id cs)
    · exact (List.map_congr_left (fun st _ => store_roundtrip st)).trans (List.map_id sts)
    · have h : ∀ p ∈ rs, ((fun p => (Prod.fst p, List.map Receipt.from_dict (Prod.snd p))) ∘
          (fun p => (Prod.fst p, List.map Receipt.to_dict (Prod.snd p)))) p = id p := by
        intro p hp
        have h2 : List.map (Receipt.from_dict ∘ Receipt.to_dict) p.2 = p.2 :=
          (List.map_congr_left (fun r hr => receipt_roundtrip r (himg p hp r hr))).trans
            (List.map_id p.2)
        show (p.1, (p.2.map Receipt.to_dict).map Receipt.from_dict) = p
        rw [List.map_map, h2]
      exact (List.map_congr_left h).trans (List.map_id rs)
  · simpa [List.map_map, Function.comp_def] using hkeys

/-- The single stored receipt of the counterexample: present but empty
image byte string. -/
def c1BadReceipt : Receipt :=
  { receipt_id := "r1", upload_date := 100, image_data := some [], ocr_text := ""
    ingredients := [], quantity := 1, shelf_life := 200 }

/-- Concrete system holding `c1BadReceipt`. -/
def c1BadSystem : ReceiptSystem :=
  { customers := [], stores := [], receipts := [("alice", [c1BadReceipt])] }

/-- Claim C1 counterexample: the round trip is not the identity on every
populated system — a receipt whose `image_data` is the empty byte string
comes back with `image_data = None`, because `to_dict` serializes the
image through Python truthiness. -/
theorem c1_counterexample :
    ReceiptSystem.from_dict (ReceiptSystem.to_dict c1BadSystem) ≠ c1BadSystem := by decide

/-- System for the C1 witness: nonempty customer, store and receipt data
with a nonempty image. -/
def c1GoodSystem : ReceiptSystem :=
  { customers := [wCust], stores := [wStore], receipts := [("a", [wReceipt])] }

/-- Claim C1 witness: the amended round trip evaluated on a concrete
populated system. -/
theorem c1_roundtrip_witness :
    ReceiptSystem.from_dict (ReceiptSystem.to_dict c1GoodSystem) = c1GoodSystem :=
  c1_roundtrip c1GoodSystem (by decide) (by decide)

/-! ### Claim C2 -/

/-- Claim C2 (confirmed): registering a customer whose id duplicates a
registered one raises the duplicate-identity `ValueError` and returns the
system exactly as it was — the uniqueness checks precede every mutation,
so the customer list and the receipts mapping are untouched. -/
theorem c2_duplicate_id (s : ReceiptSystem) (c : Customer)
    (h : ∃ c0 ∈ s.customers, c0.customer_id = c.customer_id) :
    s.register_customer c =
      (.error (.valueError ("Customer with ID " ++ c.customer_id ++ " already exists")), s) := by
  have hany : s.customers.any (fun c0 => c0.customer_id == c.customer_id) = true := by
    obtain ⟨c0, hc0, he⟩ := h
    exact List.any_eq_true.mpr ⟨c0, hc0, by simpa using he⟩
  simp [ReceiptSystem.register_customer, hany]

/-- Same id as `wCust`, different email. -/
def wCustDupId : Customer := { wCust with email := "other@x.com" }

/-- Claim C2 witness: the duplicate-id failure evaluated on the concrete
one-customer system. -/
theorem c2_witness :
    wSystem.register_customer wCustDupId =
      (.error (.valueError ("Customer with ID " ++ wCustDupId.customer_id ++
        " already exists")), wSystem) :=
  c2_duplicate_id wSystem wCustDupId ⟨wCust, by decide, by decide⟩

/-! ### Claim C3 -/

/-- Claim C3 (confirmed): registration rejects only exact email
duplicates while lookup is case-insensitive — an exact email match makes
`register_customer` fail with the duplicate-identity error leaving the
system unchanged, a customer differing from every stored record in id and
exact email (in particular one whose email differs only in case)
registers successfully, and `get_customer_by_email` returns the first
customer in insertion order whose lowercased email equals the lowercased
query, or the `None` sentinel. -/
theorem c3_email_asymmetry (s : ReceiptSystem) (c : Customer) (e : String) :
    ((∃ c0 ∈ s.customers, c0.email = c.email) →
      ∃ msg, s.register_customer c = (.error (.valueError msg), s)) ∧
    ((∀ c0 ∈ s.customers, c0.customer_id ≠ c.customer_id) →
      (∀ c0 ∈ s.customers, c0.email ≠ c.email) →
      (s.register_customer c).1 = .ok ()) ∧
    s.get_customer_by_email e = s.customers.find? (fun c0 => pyLower c0.email == pyLower e) := by
  refine ⟨?_, ?_, ?_⟩
  · intro h
    cases hid : s.customers.any (fun c0 => c0.customer_id == c.customer_id) with
    | true =>
      exact ⟨"Customer with ID " ++ c.customer_id ++ " already exists",
        by simp [ReceiptSystem.register_customer, hid]⟩
    | false =>
      have hem : s.customers.any (fun c0 => c0.email == c.email) = true := by
        obtain ⟨c0, hc0, he⟩ := h
        exact List.any_eq_true.mpr ⟨c0, hc0, by simpa using he⟩
      exact ⟨"Customer with email " ++ c.email ++ " already exists",
        by simp [ReceiptSystem.register_customer, hid, hem]⟩
  · intro h1 h2
    have hid : s.customers.any (fun c0 => c0.customer_id == c.customer_id) = false := by
      rw [List.any_eq_false]
      intro c0 hc0
      simpa using h1 c0 hc0
    have hem : s.customers.any (fun c0 => c0.email == c.email) = false := by
      rw [List.any_eq_false]
      intro c0 hc0
      simpa using h2 c0 hc0
    simp [ReceiptSystem.register_customer, hid, hem]
  · unfold ReceiptSystem.get_customer_by_email
    induction s.customers with
    | nil => rfl
    | cons c0 rest ih =>
      by_cases hc : pyLower c0.email = pyLower e
      · simp [findByEmail, List.find?_cons, hc]
      · simp [findByEmail, List.find?_cons, hc, ih]

/-- Same email as `wCust` exactly, fresh id. -/
def wCustDupEmail : Customer := { wCust with customer_id := "c" }

/-- Fresh id, email differing from `wCust` only in letter case. -/
def wCustCase : Customer := { wCust with customer_id := "b", email := "a@X.COM" }

/-- Claim C3 witness: exact-duplicate email rejected, case-variant email
accepted, case-insensitive lookup returning the first (insertion-order)
match, all on the concrete one-customer system. -/
theorem c3_witness :
    (∃ msg, wSystem.register_customer wCustDupEmail = (.error (.valueError msg), wSystem)) ∧
    (wSystem.register_customer wCustCase).1 = .ok () ∧
    wSystem.get_customer_by_email "a@x.CoM" = some wCust :=
  ⟨(c3_email_asymmetry wSystem wCustDupEmail "").1 ⟨wCust, by decide, by decide⟩,
    (c3_email_asymmetry wSystem wCustCase "").2.1 (by decide) (by decide),
    ((c3_email_asymmetry wSystem wCust "a@x.CoM").2.2).trans (by decide)⟩

/-! ### Claim C5 -/

/-- Claim C5 (confirmed): for every receipt and every injected ingredient
sample, processing sets the shelf life to the upload date plus exactly 3
days when milk or eggs is among the sampled ingredients, and plus exactly
7 days otherwise — a single two-valued offset, never a combination. -/
theorem c5_shelf_life (s : ReceiptSystem) (receipt : Receipt) (customer_id : Option String)
    (sampled : List String) (prices : Nat → String) :
    (s.process_receipt receipt customer_id sampled prices).1.shelf_life =
      receipt.upload_date +
        (if "milk" ∈ sampled ∨ "eggs" ∈ sampled then 3 else 7) * secondsPerDay := by
  unfold ReceiptSystem.process_receipt
  cases customer_id with
  | none => rfl
  | some cid =>
    dsimp only
    split <;> rfl

/-! ### Claim C6 -/

/-- Claim C6 (confirmed): processing a receipt with an unrecognized
customer id, or with no id, populates the ingredients, the OCR text and
the shelf life, raises nothing, and returns the system exactly unchanged;
conversely the system changes only when the supplied id is a key of the
receipts mapping. -/
theorem c6_unrecognized_id_frame (s : ReceiptSystem) (receipt : Receipt)
    (customer_id : Option String) (sampled : List String) (prices : Nat → String) :
    ((customer_id = none ∨ ∃ cid, customer_id = some cid ∧ dictMem cid s.receipts = false) →
      s.process_receipt receipt customer_id sampled prices =
        ({ receipt with
            ingredients := sampled
            ocr_text := ocrText receipt.receipt_id receipt.upload_date sampled prices
            shelf_life := receipt.upload_date +
              (if "milk" ∈ sampled ∨ "eggs" ∈ sampled then 3 else 7) * secondsPerDay }, s)) ∧
    ((s.process_receipt receipt customer_id sampled prices).2 ≠ s →
      ∃ cid, customer_id = some cid ∧ dictMem cid s.receipts = true) := by
  constructor
  · rintro (rfl | ⟨cid, rfl, hmem⟩)
    · rfl
    · unfold ReceiptSystem.process_receipt
      dsimp only
      rw [if_neg]
      rintro ⟨-, h2⟩
      rw [hmem] at h2
      exact Bool.false_ne_true h2
  · intro hne
    cases hcid : customer_id with
    | none =>
      rw [hcid] at hne
      exact absurd rfl hne
    | some cid =>
      rw [hcid] at hne
      unfold ReceiptSystem.process_receipt at hne
      dsimp only at hne
      by_cases hcond : cid ≠ "" ∧ dictMem cid s.receipts = true
      · exact ⟨cid, rfl, hcond.2⟩
      · rw [if_neg hcond] at hne
        exact absurd rfl hne

/-- Claim C6 witness: processing with the unknown id `"zz"` on the
concrete system — fields populated, system untouched. -/
theorem c6_witness :
    wSystem.process_receipt wReceipt (some "zz") ["rice", "pasta"] wPrices =
      ({ wReceipt with
          ingredients := ["rice", "pasta"]
          ocr_text := ocrText wReceipt.receipt_id wReceipt.upload_date ["rice", "pasta"] wPrices
          shelf_life := wReceipt.upload_date +
            (if "milk" ∈ ["rice", "pasta"] ∨ "eggs" ∈ ["rice", "pasta"] then 3 else 7) *
              secondsPerDay }, wSystem) :=
  (c6_unrecognized_id_frame wSystem wReceipt (some "zz") ["rice", "pasta"] wPrices).1
    (Or.inr ⟨"zz", rfl, by decide⟩)

/-! ### Claim C10 -/

/-- Claim C10 (confirmed): even when the empty string is a key of the
receipts mapping, processing with `customer_id = ""` stores nothing — the
storage branch needs the id to be truthy as well as present. -/
theorem c10_empty_id_not_stored (s : ReceiptSystem) (receipt : Receipt)
    (sampled : List String) (prices : Nat → String)
    (h : dictMem "" s.receipts = true) :
    (s.process_receipt receipt (some "") sampled prices).2 = s := by
  unfold ReceiptSystem.process_receipt
  dsimp only
  rw [if_neg]
  rintro ⟨h1, -⟩
  exact h1 rfl

/-- Concrete system whose receipts mapping has the empty string as a key
(a customer registered with the empty id). -/
def c10System : ReceiptSystem :=
  { customers := [{ wCust with customer_id := "" }], stores := [], receipts := [("", [])] }

/-- Claim C10 witness: the empty-key system is untouched by processing
with the empty id. -/
theorem c10_witness :
    dictMem "" c10System.receipts = true ∧
    (c10System.process_receipt wReceipt (some "") ["rice"] wPrices).2 = c10System :=
  ⟨by decide, c10_empty_id_not_stored c10System wReceipt ["rice"] wPrices (by decide)⟩

/-! ### Claim C8 -/

/-- Claim C8 (confirmed): setting a password and verifying the same
plaintext succeeds for whatever (nonempty) salt was generated and
whatever value the (never-empty-output) digest returns; verification
succeeds only when the recomputed hash of the candidate with the stored
salt equals the stored hash exactly; and verification fails whenever the
hash or the salt is absent. -/
theorem c8_password (H : String → String) (c : Customer) (p q newSalt : String) :
    (newSalt ≠ "" → hash_password H p newSalt ≠ "" →
      (c.set_password H p newSalt).verify_password H p = true) ∧
    (c.verify_password H q = true →
      ∃ h sl, c.password_hash = some h ∧ c.salt = some sl ∧ h = hash_password H q sl) ∧
    ((c.password_hash = none ∨ c.salt = none) → c.verify_password H q = false) := by
  refine ⟨?_, ?_, ?_⟩
  · intro h1 h2
    simp [Customer.set_password, Customer.verify_password, h1, h2]
  · intro hv
    unfold Customer.verify_password at hv
    cases hh : c.password_hash with
    | none => rw [hh] at hv; simp at hv
    | some h0 =>
      cases hs : c.salt with
      | none => rw [hh, hs] at hv; simp at hv
      | some sl0 =>
        rw [hh, hs] at hv
        by_cases he : h0 = "" ∨ sl0 = ""
        · simp [he] at hv
        · simp only [if_neg he, decide_eq_true_eq] at hv
          exact ⟨h0, sl0, rfl, rfl, hv⟩
  · rintro (hh | hs)
    · cases hs2 : c.salt <;> simp [Customer.verify_password, hh, hs2]
    · cases hh2 : c.password_hash <;> simp [Customer.verify_password, hs, hh2]

/-- The sample customer after setting password `"p1"` with salt `"s1"`
under the concrete digest. -/
def wCustPw : Customer := wCust.set_password wHash "p1" "s1"

/-- Claim C8 witness: the three credential facts evaluated on the
concrete customer and digest. -/
theorem c8_witness :
    wCustPw.verify_password wHash "p1" = true ∧
    (∃ h sl, wCustPw.password_hash = some h ∧ wCustPw.salt = some sl ∧
      h = hash_password wHash "p1" sl) ∧
    wCust.verify_password wHash "p1" = false :=
  ⟨(c8_password wHash wCust "p1" "p1" "s1").1 (by decide) (by decide),
    (c8_password wHash wCustPw "p1" "p1" "s1").2.1
      ((c8_password wHash wCust "p1" "p1" "s1").1 (by decide) (by decide)),
    (c8_password wHash wCust "p1" "p1" "s1").2.2 (Or.inl rfl)⟩

/-! ### Claim C7 -/

/-- Claim C7 (confirmed): the unknown-email failure and the
wrong-password failure of `authenticate_customer` return the identical
not-authenticated result `(None, unchanged system)` — no distinguishing
signal — while a successful authentication returns the found customer
with `last_login` set to the injected current time. -/
theorem c7_auth (H : String → String) (s : ReceiptSystem) (e1 p1 e2 p2 : String)
    (now : DateTime) :
    (s.get_customer_by_email e1 = none →
      s.authenticate_customer H e1 p1 now = (none, s)) ∧
    (∀ c, s.get_customer_by_email e2 = some c → c.verify_password H p2 = false →
      s.authenticate_customer H e2 p2 now = (none, s)) ∧
    (s.get_customer_by_email e1 = none →
      ∀ c, s.get_customer_by_email e2 = some c → c.verify_password H p2 = false →
      s.authenticate_customer H e1 p1 now = s.authenticate_customer H e2 p2 now) ∧
    (∀ c, s.get_customer_by_email e1 = some c → c.verify_password H p1 = true →
      (s.authenticate_customer H e1 p1 now).1 = some { c with last_login := some now }) := by
  refine ⟨?_, ?_, ?_, ?_⟩
  · intro h
    simp [ReceiptSystem.authenticate_customer, h]
  · intro c hc hv
    simp [ReceiptSystem.authenticate_customer, hc, hv]
  · intro h1 c hc hv
    rw [show s.authenticate_customer H e1 p1 now = (none, s) by
        simp [ReceiptSystem.authenticate_customer, h1],
      show s.authenticate_customer H e2 p2 now = (none, s) by
        simp [ReceiptSystem.authenticate_customer, hc, hv]]
  · intro c hc hv
    simp [ReceiptSystem.authenticate_customer, hc, hv, Customer.record_login]

/-- Concrete system for the authentication witness: one customer with a
stored password. -/
def wSysAuth : ReceiptSystem :=
  { customers := [wCustPw], stores := [], receipts := [("a", [])] }

/-- Claim C7 witness: unknown email and wrong password give the same
concrete result, and the correct password returns the customer stamped
with the injected time. -/
theorem c7_witness :
    wSysAuth.authenticate_customer wHash "z@x.com" "p1" 777 = (none, wSysAuth) ∧
    wSysAuth.authenticate_customer wHash "a@x.com" "bad" 777 = (none, wSysAuth) ∧
    wSysAuth.authenticate_customer wHash "z@x.com" "p1" 777 =
      wSysAuth.authenticate_customer wHash "a@x.com" "bad" 777 ∧
    (wSysAuth.authenticate_customer wHash "a@x.com" "p1" 777).1 =
      some { wCustPw with last_login := some 777 } :=
  ⟨(c7_auth wHash wSysAuth "z@x.com" "p1" "a@x.com" "bad" 777).1 (by decide),
    (c7_auth wHash wSysAuth "z@x.com" "p1" "a@x.com" "bad" 777).2.1 wCustPw (by decide)
      (by decide),
    (c7_auth wHash wSysAuth "z@x.com" "p1" "a@x.com" "bad" 777).2.2.1 (by decide) wCustPw
      (by decide) (by decide),
    (c7_auth wHash wSysAuth "a@x.com" "p1" "" "" 777).2.2.2 wCustPw (by decide) (by decide)⟩

/-! ### Claim C9: key-membership lemmas for the receipts dict -/

theorem dictMem_dictSet {α : Type} (k k2 : String) (m : List (String × α)) (v : α) :
    dictMem k (dictSet m k2 v) = true ↔ (k2 = k ∨ dictMem k m = true) := by
  induction m with
  | nil => simp [dictSet, dictMem]
  | cons p rest ih =>
    by_cases h : p.1 = k2
    · simp only [dictSet, if_pos h, dictMem, List.any_cons] at *
      constructor
      · rintro hor
        rcases Bool.or_eq_true_iff.mp hor with h1 | h2
        · exact Or.inl (by simpa using h1)
        · exact Or.inr (Bool.or_eq_true_iff.mpr (Or.inr h2))
      · rintro (h1 | h2)
        · exact Bool.or_eq_true_iff.mpr (Or.inl (by simpa using h1))
        · rcases Bool.or_eq_true_iff.mp h2 with h3 | h4
          · exact Bool.or_eq_true_iff.mpr (Or.inl (by simp at h3 ⊢; rw [← h]; exact h3))
          · exact Bool.or_eq_true_iff.mpr (Or.inr h4)
    · simp only [dictSet, if_neg h, dictMem, List.any_cons] at *
      constructor
      · intro hor
        rcases Bool.or_eq_true_iff.mp hor with h1 | h2
        · exact Or.inr (Bool.or_eq_true_iff.mpr (Or.inl h1))
        · rcases ih.mp h2 with h3 | h4
          · exact Or.inl h3
          · exact Or.inr (Bool.or_eq_true_iff.mpr (Or.inr h4))
      · rintro (h1 | h2)
        · exact Bool.or_eq_true_iff.mpr (Or.inr (ih.mpr (Or.inl h1)))
        · rcases Bool.or_eq_true_iff.mp h2 with h3 | h4
          · exact Bool.or_eq_true_iff.mpr (Or.inl h3)
          · exact Bool.or_eq_true_iff.mpr (Or.inr (ih.mpr (Or.inr h4)))

theorem dictMem_dictAppend (k k2 : String) (m : List (String × List Receipt)) (r : Receipt) :
    dictMem k (dictAppend m k2 r) = dictMem k m := by
  induction m with
  | nil => rfl
  | cons p rest ih =>
    simp only [dictAppend]
    by_cases h : p.1 = k2
    · rw [if_pos h]
      rfl
    · rw [if_neg h]
      simp only [dictMem, List.any_cons]
      have h2 : (dictAppend rest k2 r).any (fun q => q.1 == k) = rest.any (fun q => q.1 == k) :=
        ih
      rw [h2]

theorem updateById_mem (c : Customer) (l : List Customer) (x : Customer)
    (hx : x ∈ (updateById c l).2) : ∃ y ∈ l, x.customer_id = y.customer_id := by
  induction l with
  | nil => simp [updateById] at hx
  | cons c0 rest ih =>
    by_cases h : c0.customer_id = c.customer_id
    · rw [updateById, if_pos h] at hx
      rcases List.mem_cons.mp hx with h1 | h2
      · exact ⟨c0, List.mem_cons_self c0 rest, by rw [h1, h]⟩
      · exact ⟨x, List.mem_cons_of_mem c0 h2, rfl⟩
    · rw [updateById, if_neg h] at hx
      rcases List.mem_cons.mp hx with h1 | h2
      · exact ⟨c0, List.mem_cons_self c0 rest, by rw [h1]⟩
      · obtain ⟨y, hy, he⟩ := ih h2
        exact ⟨y, List.mem_cons_of_mem c0 hy, he⟩

theorem recordLoginFirst_mem (e : String) (now : DateTime) (l : List Customer) (x : Customer)
    (hx : x ∈ recordLoginFirst e now l) : ∃ y ∈ l, x.customer_id = y.customer_id := by
  induction l with
  | nil => simp [recordLoginFirst] at hx
  | cons c0 rest ih =>
    by_cases h : pyLower c0.email = pyLower e
    · rw [recordLoginFirst, if_pos h] at hx
      rcases List.mem_cons.mp hx with h1 | h2
      · exact ⟨c0, List.mem_cons_self c0 rest, by rw [h1]; rfl⟩
      · exact ⟨x, List.mem_cons_of_mem c0 h2, rfl⟩
    · rw [recordLoginFirst, if_neg h] at hx
      rcases List.mem_cons.mp hx with h1 | h2
      · exact ⟨c0, List.mem_cons_self c0 rest, by rw [h1]⟩
      · obtain ⟨y, hy, he⟩ := ih h2
        exact ⟨y, List.mem_cons_of_mem c0 hy, he⟩

theorem foldl_receipts_customers (l : List (String × List ReceiptDict)) (s : ReceiptSystem) :
    (l.foldl (fun s p => { s with receipts := dictSet s.receipts p.1 (p.2.map Receipt.from_dict) })
      s).customers = s.customers := by
  induction l generalizing s with
  | nil => rfl
  | cons p rest ih => rw [List.foldl_cons, ih]

theorem foldl_receipts_mem_self (l : List (String × List ReceiptDict)) (s : ReceiptSystem)
    (k : String) (h : dictMem k s.receipts = true) :
    dictMem k
      ((l.foldl
        (fun s p => { s with receipts := dictSet s.receipts p.1 (p.2.map Receipt.from_dict) })
        s).receipts) = true := by
  induction l generalizing s with
  | nil => exact h
  | cons p rest ih =>
    rw [List.foldl_cons]
    exact ih _ ((dictMem_dictSet k p.1 s.receipts _).mpr (Or.inr h))

theorem foldl_receipts_mem_of_any (l : List (String × List ReceiptDict)) (s : ReceiptSystem)
    (k : String) (h : dictMem k l = true) :
    dictMem k
      ((l.foldl
        (fun s p => { s with receipts := dictSet s.receipts p.1 (p.2.map Receipt.from_dict) })
        s).receipts) = true := by
  induction l generalizing s with
  | nil => simp [dictMem] at h
  | cons p rest ih =>
    rw [List.foldl_cons]
    by_cases hp : p.1 = k
    · exact foldl_receipts_mem_self rest _ k
        ((dictMem_dictSet k p.1 s.receipts _).mpr (Or.inl hp))
    · apply ih
      simp only [dictMem, List.any_cons, Bool.or_eq_true_iff] at h
      rcases h with h1 | h2
      · exact absurd (by simpa using h1) hp
      · exact h2

/-- Claim C9 (corrected): the every-customer-has-a-receipts-key invariant
holds of the empty system, is established by `register_customer`, and is
preserved by `update_customer`, `add_store`, `process_receipt` and
`authenticate_customer`; `from_dict` establishes it exactly when every
customer record of the input carries a key in the input receipts mapping
(the loader creates no empty entries), which holds in particular of
`to_dict` output of an invariant-satisfying system. -/
theorem c9_invariant (s : ReceiptSystem) (c : Customer) (st : Store) (receipt : Receipt)
    (customer_id : Option String) (sampled : List String) (prices : Nat → String)
    (H : String → String) (e pw : String) (now : DateTime) (d : SystemDict) :
    ReceiptSystem.Inv { customers := [], stores := [], receipts := [] } ∧
    (s.Inv → (s.register_customer c).2.Inv) ∧
    (s.Inv → (s.update_customer c).2.Inv) ∧
    (s.Inv → (s.add_store st).2.Inv) ∧
    (s.Inv → (s.process_receipt receipt customer_id sampled prices).2.Inv) ∧
    (s.Inv → (s.authenticate_customer H e pw now).2.Inv) ∧
    ((∀ cd ∈ d.customers, dictMem cd.customer_id d.receipts = true) →
      (ReceiptSystem.from_dict d).Inv) := by
  refine ⟨?_, ?_, ?_, ?_, ?_, ?_, ?_⟩
  · intro x hx
    exact absurd hx (List.not_mem_nil x)
  · intro hInv
    unfold ReceiptSystem.register_customer
    split
    · exact hInv
    · split
      · exact hInv
      · intro x hx
        simp only at hx ⊢
        rcases List.mem_append.mp hx with h1 | h2
        · exact (dictMem_dictSet _ _ _ _).mpr (Or.inr (hInv x h1))
        · rw [List.mem_singleton.mp h2]
          exact (dictMem_dictSet _ _ _ _).mpr (Or.inl rfl)
  · intro hInv x hx
    unfold ReceiptSystem.update_customer at hx
    simp only at hx
    obtain ⟨y, hy, he⟩ := updateById_mem c s.customers x hx
    show dictMem x.customer_id s.receipts = true
    rw [he]
    exact hInv y hy
  · intro hInv
    unfold ReceiptSystem.add_store
    split
    · exact hInv
    · exact fun x hx => hInv x hx
  · intro hInv
    unfold ReceiptSystem.process_receipt
    cases customer_id with
    | none => exact hInv
    | some cid =>
      dsimp only
      split
      · intro x hx
        show dictMem x.customer_id (dictAppend s.receipts cid _) = true
        rw [dictMem_dictAppend]
        exact hInv x hx
      · exact hInv
  · intro hInv
    unfold ReceiptSystem.authenticate_customer
    cases hg : s.get_customer_by_email e with
    | none => exact hInv
    | some c0 =>
      dsimp only
      split
      · intro x hx
        obtain ⟨y, hy, he⟩ := recordLoginFirst_mem e now s.customers x hx
        show dictMem x.customer_id s.receipts = true
        rw [he]
        exact hInv y hy
      · exact hInv
  · intro hd x hx
    unfold ReceiptSystem.from_dict at hx ⊢
    simp only at hx ⊢
    rw [foldl_receipts_customers, foldl_customers_append, foldl_stores_append] at hx
    simp only [List.nil_append] at hx
    have hx2 : x ∈ List.map Customer.from_dict d.customers := by
      simpa using hx
    obtain ⟨cd, hcd, hxeq⟩ := List.mem_map.mp hx2
    apply foldl_receipts_mem_of_any
    have : x.customer_id = cd.customer_id := by rw [← hxeq]; rfl
    rw [this]
    exact hd cd hcd

/-- A snapshot holding a customer but no receipts entry for it: the
loader accepts it and produces a system violating the invariant. -/
def c9BadDict : SystemDict :=
  { customers := [Customer.to_dict wCust], stores := [], receipts := [] }

/-- Claim C9 counterexample: construction via `from_dict` does not
preserve the invariant — loading a snapshot whose customer has no
receipts entry yields a registered customer whose id is not a key of the
receipts mapping. -/
theorem c9_counterexample : ¬ (ReceiptSystem.from_dict c9BadDict).Inv := by
  intro h
  have := h (Customer.from_dict (Customer.to_dict wCust)) (by decide)
  revert this
  decide

/-- Claim C9 witness: every conjunct of the amended invariant theorem
evaluated on the concrete system. -/
theorem c9_witness :
    ReceiptSystem.Inv { customers := [], stores := [], receipts := [] } ∧
    (wSystem.register_customer wCustCase).2.Inv ∧
    (wSystem.update_customer wCustCase).2.Inv ∧
    (wSystem.add_store wStore).2.Inv ∧
    (wSystem.process_receipt wReceipt (some "a") ["milk"] wPrices).2.Inv ∧
    (wSystem.authenticate_customer wHash "a@x.com" "p1" 5).2.Inv ∧
    (ReceiptSystem.from_dict (ReceiptSystem.to_dict wSystem)).Inv := by
  obtain ⟨h1, h2, h3, h4, h5, h6, h7⟩ := c9_invariant wSystem wCustCase wStore wReceipt
    (some "a") ["milk"] wPrices wHash "a@x.com" "p1" 5 (ReceiptSystem.to_dict wSystem)
  exact ⟨h1, h2 (by decide), h3 (by decide), h4 (by decide), h5 (by decide), h6 (by decide),
    h7 (by decide)⟩

/-! ### Claim C4: lemmas about the stable descending sort -/

/-- The descending-with-stable-ties order on index-tagged items: either
strictly larger score, or equal score and the smaller original index. -/
def StableDescRel {α : Type} (score : α → Nat) : (Nat × α) → (Nat × α) → Prop :=
  fun a b => score b.2 < score a.2 ∨ (score a.2 = score b.2 ∧ a.1 < b.1)

theorem insertDescBy_perm {α : Type} (score : α → Nat) (x : α) (l : List α) :
    (insertDescBy score x l).Perm (x :: l) := by
  induction l with
  | nil => exact List.Perm.refl _
  | cons b bs ih =>
    simp only [insertDescBy]
    split
    · exact List.Perm.refl _
    · exact (List.Perm.cons b ih).trans (List.Perm.swap x b bs)

theorem sortDescBy_perm {α : Type} (score : α → Nat) (l : List α) :
    (sortDescBy score l).Perm l := by
  induction l with
  | nil => exact List.Perm.refl _
  | cons x xs ih => exact (insertDescBy_perm score x _).trans (List.Perm.cons x ih)

theorem insertDescBy_pairwise {α : Type} (score : α → Nat) (x : Nat × α) (l : List (Nat × α))
    (hl : l.Pairwise (StableDescRel score)) (hidx : ∀ b ∈ l, x.1 < b.1) :
    (insertDescBy (fun p => score p.2) x l).Pairwise (StableDescRel score) := by
  induction l with
  | nil => exact List.pairwise_singleton _ x
  | cons b bs ih =>
    rcases List.pairwise_cons.mp hl with ⟨hb, hbs⟩
    simp only [insertDescBy]
    split
    case isTrue hle =>
      refine List.pairwise_cons.mpr ⟨?_, hl⟩
      intro c hc
      rcases List.mem_cons.mp hc with rfl | hcbs
      · rcases Nat.lt_or_ge (score c.2) (score x.2) with hlt | hge
        · exact Or.inl hlt
        · exact Or.inr ⟨Nat.le_antisymm hge hle, hidx c (by simp)⟩
      · have hcb := hb c hcbs
        have hle2 : score c.2 ≤ score x.2 := by
          rcases hcb with h1 | h2
          · exact le_trans (le_of_lt h1) hle
          · exact le_trans (le_of_eq h2.1.symm) hle
        rcases Nat.lt_or_ge (score c.2) (score x.2) with hlt | hge
        · exact Or.inl hlt
        · exact Or.inr ⟨Nat.le_antisymm hge hle2, hidx c (List.mem_cons_of_mem b hcbs)⟩
    case isFalse hgt =>
      have hx : score x.2 < score b.2 := Nat.lt_of_not_le hgt
      refine List.pairwise_cons.mpr
        ⟨?_, ih hbs (fun c hc => hidx c (List.mem_cons_of_mem b hc))⟩
      intro c hc
      have hc2 : c = x ∨ c ∈ bs :=
        List.mem_cons.mp ((insertDescBy_perm (fun p => score p.2) x bs).mem_iff.mp hc)
      rcases hc2 with rfl | hcbs
      · exact Or.inl hx
      · exact hb c hcbs

theorem mem_enumFrom_le {α : Type} (l : List α) :
    ∀ (n : Nat), ∀ p ∈ List.enumFrom n l, n ≤ p.1 := by
  induction l with
  | nil => intro n p hp; simp [List.enumFrom] at hp
  | cons a as ih =>
    intro n p hp
    rcases List.mem_cons.mp hp with rfl | h2
    · exact Nat.le_refl n
    · exact Nat.le_of_succ_le (ih (n + 1) p h2)

theorem sortDescBy_enumFrom_pairwise {α : Type} (score : α → Nat) (l : List α) :
    ∀ n, (sortDescBy (fun p => score p.2) (List.enumFrom n l)).Pairwise
      (StableDescRel score) := by
  induction l with
  | nil => intro n; exact List.Pairwise.nil
  | cons a as ih =>
    intro n
    simp only [List.enumFrom, sortDescBy]
    apply insertDescBy_pairwise
    · exact ih (n + 1)
    · intro b hb
      have hb2 : b ∈ List.enumFrom (n + 1) as := (sortDescBy_perm _ _).mem_iff.mp hb
      exact Nat.lt_of_lt_of_le (Nat.lt_succ_self n) (mem_enumFrom_le as (n + 1) b hb2)

theorem map_snd_insertDescBy {α : Type} (score : α → Nat) (x : Nat × α) (l : List (Nat × α)) :
    (insertDescBy (fun p => score p.2) x l).map Prod.snd =
      insertDescBy score x.2 (l.map Prod.snd) := by
  induction l with
  | nil => rfl
  | cons b bs ih =>
    simp only [insertDescBy, List.map_cons]
    by_cases h : score b.2 ≤ score x.2
    · rw [if_pos h, if_pos h]
      rfl
    · rw [if_neg h, if_neg h, List.map_cons, ih]

theorem map_snd_sortDescBy {α : Type} (score : α → Nat) (l : List α) :
    ∀ n, (sortDescBy (fun p => score p.2) (List.enumFrom n l)).map Prod.snd =
      sortDescBy score l := by
  induction l with
  | nil => intro n; rfl
  | cons a as ih =>
    intro n
    simp only [List.enumFrom, sortDescBy, map_snd_insertDescBy, ih]

theorem filterMap_getElem_sound (l : List MenuItem) :
    ∀ (idxs : List Nat), (∀ i ∈ idxs, i < l.length) →
      (idxs.filterMap (fun i => l[i]?)).length = idxs.length ∧
      ∀ x ∈ idxs.filterMap (fun i => l[i]?), x ∈ l := by
  intro idxs
  induction idxs with
  | nil => intro _; exact ⟨rfl, by simp⟩
  | cons i rest ih =>
    intro h
    have hi : i < l.length := h i (by simp)
    obtain ⟨ih1, ih2⟩ := ih (fun j hj => h j (List.mem_cons_of_mem i hj))
    rw [List.filterMap_cons, List.getElem?_eq_getElem hi]
    refine ⟨by simp [ih1], ?_⟩
    intro x hx
    rcases List.mem_cons.mp hx with rfl | h2
    · exact List.getElem_mem hi
    · exact ih2 x h2

theorem foldl_append_flatten (l : List Store) (acc : List MenuItem) :
    l.foldl (fun acc st => acc ++ st.menu_items) acc =
      acc ++ (l.map Store.menu_items).flatten := by
  induction l generalizing acc with
  | nil => simp
  | cons st rest ih => simp [List.foldl_cons, ih]

theorem foldl_append_ingredients (l : List Receipt) (acc : List String) :
    l.foldl (fun acc (r : Receipt) => acc ++ r.ingredients) acc =
      acc ++ (l.map Receipt.ingredients).flatten := by
  induction l generalizing acc with
  | nil => simp
  | cons r rest ih => simp [List.foldl_cons, ih]

/-- Claim C4 (confirmed): the recommendation pool is every menu item over
every store in store order then item order; the interest set is the union
of the favourite foods and the ingredients of every receipt stored under
the customer id; the matching items are the pool items sharing an
ingredient with the interest set; an empty pool gives the empty result; a
nonempty matching list is stably sorted descending by overlap count
(original pool order on ties) and the first min(3, matches) are returned;
with no matching item, any valid injected sample of size
min(pool size, randint within 1..3) yields a result lying in the pool
with length between 1 and min(3, pool size). -/
theorem c4_recommendations (s : ReceiptSystem) (customer : Customer) (randInt13 : Nat)
    (sampleIdxs : List Nat) :
    s.allMenuItems = (s.stores.map Store.menu_items).flatten ∧
    (∀ ing, ing ∈ s.interestSet customer ↔ (ing ∈ customer.favorite_food ∨
      (dictMem customer.customer_id s.receipts = true ∧
        ∃ r ∈ dictFind customer.customer_id s.receipts, ing ∈ r.ingredients))) ∧
    (∀ item, item ∈ s.matchingItems customer ↔ (item ∈ s.allMenuItems ∧
      ∃ ing ∈ s.interestSet customer, ing ∈ item.ingredients)) ∧
    (s.allMenuItems = [] → s.get_recommendations customer randInt13 sampleIdxs = []) ∧
    (s.matchingItems customer ≠ [] →
      ∃ sorted : List (Nat × MenuItem),
        sorted.Perm (s.matchingItems customer).enum ∧
        sorted.Pairwise (StableDescRel (matchScore (s.interestSet customer))) ∧
        s.get_recommendations customer randInt13 sampleIdxs = (sorted.map Prod.snd).take 3 ∧
        (s.get_recommendations customer randInt13 sampleIdxs).length =
          min 3 (s.matchingItems customer).length) ∧
    (s.matchingItems customer = [] → s.allMenuItems ≠ [] → 1 ≤ randInt13 → randInt13 ≤ 3 →
      sampleIdxs.Nodup → (∀ i ∈ sampleIdxs, i < s.allMenuItems.length) →
      min s.allMenuItems.length randInt13 ≤ sampleIdxs.length →
      (∀ x ∈ s.get_recommendations customer randInt13 sampleIdxs, x ∈ s.allMenuItems) ∧
      (s.get_recommendations customer randInt13 sampleIdxs).length =
        min s.allMenuItems.length randInt13 ∧
      1 ≤ (s.get_recommendations customer randInt13 sampleIdxs).length ∧
      (s.get_recommendations customer randInt13 sampleIdxs).length ≤
        min 3 s.allMenuItems.length) := by
  refine ⟨?_, ?_, ?_, ?_, ?_, ?_⟩
  · have h := foldl_append_flatten s.stores []
    simpa [ReceiptSystem.allMenuItems] using h
  · intro ing
    unfold ReceiptSystem.interestSet
    rw [List.mem_dedup, List.mem_append]
    by_cases hm : dictMem customer.customer_id s.receipts = true
    · rw [if_pos hm, foldl_append_ingredients]
      simp [List.mem_flatten, hm]
    · rw [if_neg hm]
      simp [hm]
  · intro item
    unfold ReceiptSystem.matchingItems
    rw [List.mem_filter, List.any_eq_true]
    constructor
    · rintro ⟨h1, ing, hing, hc⟩
      exact ⟨h1, ing, hing, List.elem_iff.mp hc⟩
    · rintro ⟨h1, ing, hing, hc⟩
      exact ⟨h1, ing, hing, List.elem_iff.mpr hc⟩
  · intro h
    simp only [ReceiptSystem.get_recommendations]
    rw [if_pos]
    rw [h]
    rfl
  · intro hne
    have hpool : s.allMenuItems ≠ [] := by
      intro h0
      apply hne
      unfold ReceiptSystem.matchingItems
      rw [h0]
      rfl
    have h1 : ¬(s.allMenuItems.isEmpty = true) := by simpa using hpool
    have h2 : ¬((s.matchingItems customer).isEmpty = true) := by simpa using hne
    have hres : s.get_recommendations customer randInt13 sampleIdxs =
        (sortDescBy (matchScore (s.interestSet customer)) (s.matchingItems customer)).take 3 := by
      simp only [ReceiptSystem.get_recommendations]
      rw [if_neg h1, if_neg h2]
    refine ⟨sortDescBy (fun p => matchScore (s.interestSet customer) p.2)
      (List.enumFrom 0 (s.matchingItems customer)), sortDescBy_perm _ _,
      sortDescBy_enumFrom_pairwise _ _ 0, ?_, ?_⟩
    · rw [hres, map_snd_sortDescBy]
    · rw [hres, List.length_take, (sortDescBy_perm _ _).length_eq]
  · intro hm hpool hr1 hr3 _hnodup hbound hlen
    have h1 : ¬(s.allMenuItems.isEmpty = true) := by simpa using hpool
    have h2 : (s.matchingItems customer).isEmpty = true := by simpa using hm
    have hres : s.get_recommendations customer randInt13 sampleIdxs =
        (sampleIdxs.take (min s.allMenuItems.length randInt13)).filterMap
          (fun i => s.allMenuItems[i]?) := by
      simp only [ReceiptSystem.get_recommendations]
      rw [if_neg h1, if_pos h2]
    obtain ⟨hlen2, hmem2⟩ := filterMap_getElem_sound s.allMenuItems
      (sampleIdxs.take (min s.allMenuItems.length randInt13))
      (fun i hi => hbound i (List.take_subset _ _ hi))
    have htake : (sampleIdxs.take (min s.allMenuItems.length randInt13)).length =
        min s.allMenuItems.length randInt13 := by
      rw [List.length_take]
      exact Nat.min_eq_left hlen
    refine ⟨?_, ?_, ?_, ?_⟩
    · intro x hx
      rw [hres] at hx
      exact hmem2 x hx
    · rw [hres, hlen2, htake]
    · rw [hres, hlen2, htake]
      exact Nat.le_min.mpr ⟨List.length_pos.mpr hpool, hr1⟩
    · rw [hres, hlen2, htake]
      exact Nat.le_min.mpr ⟨Nat.le_trans (Nat.min_le_right _ _) hr3, Nat.min_le_left _ _⟩

/-- A customer with no favourite foods and no stored receipts: the
interest set is empty, so no menu item matches. -/
def wCustNoMatch : Customer := { wCust with customer_id := "z", favorite_food := [] }

/-- Claim C4 witness: the ranked branch on the concrete matching customer
and the random-fallback branch on the concrete non-matching customer. -/
theorem c4_witness :
    (∃ sorted : List (Nat × MenuItem),
      sorted.Perm (wSystem.matchingItems wCust).enum ∧
      sorted.Pairwise (StableDescRel (matchScore (wSystem.interestSet wCust))) ∧
      wSystem.get_recommendations wCust 2 [2, 0, 1] = (sorted.map Prod.snd).take 3 ∧
      (wSystem.get_recommendations wCust 2 [2, 0, 1]).length =
        min 3 (wSystem.matchingItems wCust).length) ∧
    ((∀ x ∈ wSystem.get_recommendations wCustNoMatch 2 [2, 0, 1], x ∈ wSystem.allMenuItems) ∧
      (wSystem.get_recommendations wCustNoMatch 2 [2, 0, 1]).length =
        min wSystem.allMenuItems.length 2 ∧
      1 ≤ (wSystem.get_recommendations wCustNoMatch 2 [2, 0, 1]).length ∧
      (wSystem.get_recommendations wCustNoMatch 2 [2, 0, 1]).length ≤
        min 3 wSystem.allMenuItems.length) :=
  ⟨(c4_recommendations wSystem wCust 2 [2, 0, 1]).2.2.2.2.1 (by decide),
    (c4_recommendations wSystem wCustNoMatch 2 [2, 0, 1]).2.2.2.2.2 (by decide) (by decide)
      (by decide) (by decide) (by decide) (by decide) (by decide)⟩

end FoodRec
